import Mathlib

/-!
# Verification of the trade-arbitrage monitoring core

Shallow embedding of the polling/detection/simulation pipeline of the
`trade-arbitrage` repository: the spread detector and lifecycle manager
(`src/engine/spreads.js`), the trade simulator (`src/engine/simulator.js`),
the polling orchestrator (`src/engine/monitor.js`), the DeFi Llama price
adapter (`src/prices/defillama.js`) and the ParaSwap quote adapter
(`src/prices/paraswap.js`).

JavaScript numbers are modelled as exact rationals (`ℚ`); millisecond and
second timestamps as integers (`ℤ`); JS objects used as string-keyed maps as
association lists looked up by first match; fallible operations as `Except`.
-/

namespace TradeArb

/-! ## Spread detector (`src/engine/spreads.js`) -/

/-- Result record of `calculateGrossSpread`. -/
structure GrossSpreadResult where
  grossSpreadPct : ℚ
  buyChain : String
  sellChain : String
  buyPrice : ℚ
  sellPrice : ℚ
  deriving Repr, DecidableEq

/-- Embedding of `calculateGrossSpread(priceA, chainA, priceB, chainB)`:
`low = min`, `high = max`; if `low <= 0` the guard branch returns spread `0`
with the operands passed through in argument order; otherwise
`grossSpreadPct = (high - low) / low * 100`, buy side is the cheaper chain
(ties to `chainA`), `buyPrice = min`, `sellPrice = max`. -/
def calculateGrossSpread (priceA : ℚ) (chainA : String) (priceB : ℚ) (chainB : String) :
    GrossSpreadResult :=
  let low := min priceA priceB
  let high := max priceA priceB
  if low ≤ 0 then
    { grossSpreadPct := 0, buyChain := chainA, sellChain := chainB,
      buyPrice := priceA, sellPrice := priceB }
  else
    { grossSpreadPct := (high - low) / low * 100
      buyChain := if priceA ≤ priceB then chainA else chainB
      sellChain := if priceA ≤ priceB then chainB else chainA
      buyPrice := min priceA priceB
      sellPrice := max priceA priceB }

/-- Embedding of `calculateNetSpread(grossSpreadPct, buyGasCostUsd, sellGasCostUsd, tradeSize)`. -/
def calculateNetSpread (grossSpreadPct buyGasCostUsd sellGasCostUsd tradeSize : ℚ) : ℚ :=
  if tradeSize ≤ 0 then 0
  else grossSpreadPct - (buyGasCostUsd + sellGasCostUsd) / tradeSize * 100

/-- Embedding of `isHighFriction(buyChain, sellChain)`. -/
def isHighFriction (buyChain sellChain : String) : Bool :=
  buyChain == "ethereum" || sellChain == "ethereum"

/-- Embedding of `generateChainPairs(chains)`: all index pairs `i < j`,
in the source's nested-loop order. -/
def generateChainPairs : List String → List (String × String)
  | [] => []
  | c :: rest => rest.map (fun d => (c, d)) ++ generateChainPairs rest

/-- A price record as consumed by `detectSpreads` (`{chain, pair, price}`). -/
structure PriceRecord where
  chain : String
  pair : String
  price : ℚ
  deriving Repr, DecidableEq

/-- A candidate spread as produced by `detectSpreads`. -/
structure CandidateSpread where
  pair : String
  buyChain : String
  sellChain : String
  buyPrice : ℚ
  sellPrice : ℚ
  grossSpreadPct : ℚ
  netSpreadPct : ℚ
  highFriction : Bool
  deriving Repr, DecidableEq

/-- Lookup in a string-keyed association list modelling a JS object;
`gasCosts[chain] ?? 0` defaults a missing chain to `0`. -/
def lookupGas (gasCosts : List (String × ℚ)) (chain : String) : ℚ :=
  match gasCosts.find? (fun g => g.1 = chain) with
  | some g => g.2
  | none => 0

/-- The key order of the JS `Map` built by grouping prices by pair:
first-occurrence order of each distinct `pair` value. -/
def pairKeys (prices : List PriceRecord) : List String :=
  prices.foldl (fun acc p => if acc.contains p.pair then acc else acc ++ [p.pair]) []

/-- The group of prices for one pair, in push order (the JS `Map` value list). -/
def groupForPair (prices : List PriceRecord) (pr : String) : List PriceRecord :=
  prices.filter (fun p => p.pair = pr)

/-- The body of `detectSpreads`' inner loop for one pair group: for each chain
pair, look up the two price records, compute the gross spread, apply the
`minGrossSpreadPct` filter, compute the net spread with per-chain gas costs
(missing ⇒ 0), apply the `minNetSpreadPct` filter, and emit the candidate. -/
def detectSpreadsForPair (pairPrices : List PriceRecord) (pr : String)
    (gasCosts : List (String × ℚ)) (minGrossSpreadPct minNetSpreadPct referenceTradeSize : ℚ) :
    List CandidateSpread :=
  (generateChainPairs (pairPrices.map (fun p => p.chain))).filterMap (fun cp =>
    match pairPrices.find? (fun p => p.chain = cp.1),
          pairPrices.find? (fun p => p.chain = cp.2) with
    | some pA, some pB =>
      let g := calculateGrossSpread pA.price cp.1 pB.price cp.2
      if g.grossSpreadPct < minGrossSpreadPct then none
      else
        let netSpreadPct := calculateNetSpread g.grossSpreadPct
          (lookupGas gasCosts g.buyChain) (lookupGas gasCosts g.sellChain) referenceTradeSize
        if netSpreadPct < minNetSpreadPct then none
        else some
          { pair := pr, buyChain := g.buyChain, sellChain := g.sellChain,
            buyPrice := g.buyPrice, sellPrice := g.sellPrice,
            grossSpreadPct := g.grossSpreadPct, netSpreadPct := netSpreadPct,
            highFriction := isHighFriction g.buyChain g.sellChain }
    | _, _ => none)

/-- Embedding of `detectSpreads({prices, gasCosts, minGrossSpreadPct,
minNetSpreadPct, referenceTradeSize})`: group prices by pair, then run the
per-pair comparison loop for every pair in map order. -/
def detectSpreads (prices : List PriceRecord) (gasCosts : List (String × ℚ))
    (minGrossSpreadPct minNetSpreadPct referenceTradeSize : ℚ) : List CandidateSpread :=
  (pairKeys prices).flatMap (fun pr =>
    detectSpreadsForPair (groupForPair prices pr) pr gasCosts
      minGrossSpreadPct minNetSpreadPct referenceTradeSize)

/-! ## Spread lifecycle manager (`processSpreads` in `src/engine/spreads.js`)

The `spreads` SQLite table is modelled as a list of rows plus the
autoincrement counter.  `updateDailyStats` only rewrites the separate
`daily_stats` table from aggregate queries; it neither reads nor writes the
`spreads` table, so the daily-stats side effect is not part of this model. -/

/-- One row of the `spreads` table. -/
structure SpreadRow where
  id : Nat
  detected_at : Int
  closed_at : Option Int
  pair : String
  buy_chain : String
  sell_chain : String
  buy_price : ℚ
  sell_price : ℚ
  gross_spread_pct : ℚ
  net_spread_pct : Option ℚ
  duration_seconds : Option Int
  deriving Repr, DecidableEq

/-- The `spreads` table with its autoincrement id counter. -/
structure Store where
  spreads : List SpreadRow
  nextId : Nat
  deriving Repr, DecidableEq

/-- Primary-key discipline of the SQLite table: row ids are pairwise
distinct. -/
def Store.WF (st : Store) : Prop := (st.spreads.map SpreadRow.id).Nodup

/-- `db.getOpenSpreads()`: rows with `closed_at IS NULL`.  The source orders
the result by `detected_at DESC`, which only affects presentation order and
none of the set-level bookkeeping; the model keeps table order. -/
def getOpenSpreads (st : Store) : List SpreadRow :=
  st.spreads.filter (fun r => r.closed_at = none)

/-- `spreadKey` on a detected candidate (`spread.buyChain` branch of the
`??` fallback). -/
def spreadKeyC (s : CandidateSpread) : String :=
  s.pair ++ ":" ++ s.buyChain ++ "→" ++ s.sellChain

/-- `spreadKey` on a stored row (`spread.buy_chain` branch of the `??`
fallback). -/
def spreadKeyR (r : SpreadRow) : String :=
  r.pair ++ ":" ++ r.buy_chain ++ "→" ++ r.sell_chain

/-- `Math.round` on an exact rational: round half toward positive infinity. -/
def jsRound (q : ℚ) : Int := ⌊q + 1/2⌋

/-- `durationSeconds = Math.round((nowMs - open.detected_at) / 1000)`. -/
def durationOf (nowMs : Int) (r : SpreadRow) : Int :=
  jsRound ((nowMs - r.detected_at : ℤ) / (1000 : ℚ))

/-- The closing `UPDATE spreads SET closed_at = ?, duration_seconds = ?
WHERE id = ?` applied to one row. -/
def closeUpd (rid : Nat) (nowMs dur : Int) (r : SpreadRow) : SpreadRow :=
  if r.id = rid then { r with closed_at := some nowMs, duration_seconds := some dur } else r

/-- The closing `UPDATE ... WHERE id = ?` applied to the table. -/
def closeRow (st : Store) (rid : Nat) (nowMs dur : Int) : Store :=
  { st with spreads := st.spreads.map (closeUpd rid nowMs dur) }

/-- `db.insertSpread({...})` for a detected candidate at `detected_at = nowMs`:
appends a fresh open row and returns its `lastInsertRowid`. -/
def insertSpread (st : Store) (c : CandidateSpread) (nowMs : Int) : Store × Nat :=
  let rid := st.nextId
  ({ spreads := st.spreads ++
      [{ id := rid, detected_at := nowMs, closed_at := none, pair := c.pair,
         buy_chain := c.buyChain, sell_chain := c.sellChain,
         buy_price := c.buyPrice, sell_price := c.sellPrice,
         gross_spread_pct := c.grossSpreadPct, net_spread_pct := some c.netSpreadPct,
         duration_seconds := none }],
     nextId := st.nextId + 1 }, rid)

/-- The spread record pushed onto `newSpreads` (`{id, ...detected,
detected_at: nowMs}`), which coincides with the inserted row. -/
def newSpreadRecord (rid : Nat) (c : CandidateSpread) (nowMs : Int) : SpreadRow :=
  { id := rid, detected_at := nowMs, closed_at := none, pair := c.pair,
    buy_chain := c.buyChain, sell_chain := c.sellChain,
    buy_price := c.buyPrice, sell_price := c.sellPrice,
    gross_spread_pct := c.grossSpreadPct, net_spread_pct := some c.netSpreadPct,
    duration_seconds := none }

/-- One iteration of the closing loop of `processSpreads`: the `UPDATE`
statement run for one stale open spread. -/
def closeStep (nowMs : Int) (s : Store) (r : SpreadRow) : Store :=
  closeRow s r.id nowMs (durationOf nowMs r)

/-- Result of `processSpreads`: the updated store together with the
`newSpreads` and `closedSpreads` output lists. -/
structure ProcessResult where
  store : Store
  newSpreads : List SpreadRow
  closedSpreads : List SpreadRow
  deriving Repr, DecidableEq

/-- The insertion loop of `processSpreads`: for each detected candidate whose
key is not among the (pre-call) open keys, insert a row and push the record. -/
def insertLoop (openKeys : List String) (nowMs : Int) :
    List CandidateSpread → Store × List SpreadRow → Store × List SpreadRow
  | [], acc => acc
  | c :: rest, acc =>
    if openKeys.contains (spreadKeyC c) then insertLoop openKeys nowMs rest acc
    else
      let p := insertSpread acc.1 c nowMs
      insertLoop openKeys nowMs rest (p.1, acc.2 ++ [newSpreadRecord p.2 c nowMs])

/-- Embedding of `processSpreads({db, detectedSpreads, nowMs})`:
read the open spreads, close every open spread whose key is no longer
detected (recording the rounded duration), then insert every detected
candidate whose key was not already open. -/
def processSpreads (st : Store) (detectedSpreads : List CandidateSpread) (nowMs : Int) :
    ProcessResult :=
  let openSpreads := getOpenSpreads st
  let detectedKeys := detectedSpreads.map spreadKeyC
  let toClose := openSpreads.filter (fun r => !(detectedKeys.contains (spreadKeyR r)))
  let st1 := toClose.foldl (closeStep nowMs) st
  let closedSpreads := toClose.map (fun r =>
    { r with closed_at := some nowMs, duration_seconds := some (durationOf nowMs r) })
  let openKeys := openSpreads.map spreadKeyR
  let res := insertLoop openKeys nowMs detectedSpreads (st1, [])
  { store := res.1, newSpreads := res.2, closedSpreads := closedSpreads }

/-! ## Trade simulator (`src/engine/simulator.js`) -/

/-- The fields of a ParaSwap quote that `simulateSingleTrade` reads:
`Number(quote.destAmount)`, `quote.destDecimals` and
`parseFloat(quote.gasCostUSD)` are modelled as already-converted numbers. -/
structure SimQuote where
  destAmount : ℚ
  destDecimals : Nat
  gasCostUSD : ℚ
  deriving Repr, DecidableEq

/-- The numeric fields of the `sim_trades` record built by
`simulateSingleTrade`. -/
structure SimTradeRecord where
  trade_size_usd : ℚ
  tokens_bought : ℚ
  usd_received : ℚ
  gas_cost_buy : ℚ
  gas_cost_sell : ℚ
  net_profit_usd : ℚ
  profit_pct : ℚ
  deriving Repr, DecidableEq

/-- Embedding of the arithmetic of `simulateSingleTrade`, parameterised by the
two quotes the adapter returned for the buy and sell legs:
`tokensBought = destAmount / 10^destDecimals` from the buy quote,
`usdReceived` likewise from the sell quote,
`netProfitUsd = usdReceived - tradeSize - gasCostBuy - gasCostSell`, and
`profitPct = netProfitUsd / tradeSize * 100` guarded to `0` when
`tradeSize ≤ 0`. -/
def simulateSingleTrade (buyQuote sellQuote : SimQuote) (tradeSize : ℚ) : SimTradeRecord :=
  let tokensBought := buyQuote.destAmount / 10 ^ buyQuote.destDecimals
  let gasCostBuy := buyQuote.gasCostUSD
  let usdReceived := sellQuote.destAmount / 10 ^ sellQuote.destDecimals
  let gasCostSell := sellQuote.gasCostUSD
  let netProfitUsd := usdReceived - tradeSize - gasCostBuy - gasCostSell
  let profitPct := if 0 < tradeSize then netProfitUsd / tradeSize * 100 else 0
  { trade_size_usd := tradeSize, tokens_bought := tokensBought,
    usd_received := usdReceived, gas_cost_buy := gasCostBuy,
    gas_cost_sell := gasCostSell, net_profit_usd := netProfitUsd,
    profit_pct := profitPct }

/-! ## ParaSwap execution-quote adapter (`src/prices/paraswap.js`) -/

/-- Error codes attached to `ParaSwapError`. -/
inductive PSCode where
  | INVALID_CHAIN
  | INVALID_TOKEN
  | RATE_LIMITED
  | HTTP_ERROR
  | MALFORMED_RESPONSE
  | TIMEOUT
  | NETWORK_ERROR
  deriving Repr, DecidableEq

/-- A `ParaSwapError`: its code, plus the HTTP status when the code is
`HTTP_ERROR` (the source embeds the status in the message string
`HTTP ${status}: ...`). -/
structure PSError where
  code : PSCode
  status : Option Nat := none
  deriving Repr, DecidableEq

/-- The `priceRoute` object of a ParaSwap response body. -/
structure PriceRoute where
  srcToken : String
  destToken : String
  srcAmount : String
  destAmount : String
  srcDecimals : Nat
  destDecimals : Nat
  gasCostUSD : Option String
  bestRoute : Option (List String)
  deriving Repr, DecidableEq

/-- The quote record returned by `parseQuoteResponse`. -/
structure ParsedQuote where
  srcToken : String
  destToken : String
  srcAmount : String
  destAmount : String
  srcDecimals : Nat
  destDecimals : Nat
  gasCostUSD : String
  bestRoute : List String
  deriving Repr, DecidableEq

/-- Embedding of `parseQuoteResponse(data)`: a body that is null or lacks
`priceRoute` is a malformed response; otherwise the route fields are copied,
with `gasCostUSD` defaulting to `"0"` and `bestRoute` to `[]`. -/
def parseQuoteResponse (data : Option PriceRoute) : Except PSError ParsedQuote :=
  match data with
  | none => .error { code := .MALFORMED_RESPONSE }
  | some route => .ok
    { srcToken := route.srcToken, destToken := route.destToken,
      srcAmount := route.srcAmount, destAmount := route.destAmount,
      srcDecimals := route.srcDecimals, destDecimals := route.destDecimals,
      gasCostUSD := route.gasCostUSD.getD "0",
      bestRoute := route.bestRoute.getD [] }

/-- The observable outcome of the single network fetch a quote request makes:
a response with an HTTP status whose body either fails JSON parsing or parses
to a body with an optional `priceRoute`; an abort fired by the timeout; or any
other fetch failure. -/
inductive FetchOutcome where
  | response (status : Nat) (body : Except Unit (Option PriceRoute))
  | abort
  | failure
  deriving Repr

/-- `response.ok`: status in the 2xx range. -/
def statusOk (status : Nat) : Bool := 200 ≤ status && status < 300

/-- The token-registry tables passed to `fetchQuote` (`TOKEN_ADDRESSES`,
`CHAIN_IDS`, `TOKEN_DECIMALS` by default, injectable for tests): chain ids,
per-chain token addresses (a registered address may be `null`, as `base.WBTC`
is), and token decimals. -/
structure QuoteRegistry where
  chainIds : List (String × Nat)
  tokenAddresses : List (String × List (String × Option String))
  tokenDecimals : List (String × Nat)
  deriving Repr, DecidableEq

/-- `TOKEN_NAME_MAP[token] || token`: map a pair token name to its registry
name. -/
def registryName (token : String) : String :=
  match [("ETH", "WETH"), ("BTC", "WBTC"), ("WETH", "WETH"),
         ("WBTC", "WBTC"), ("USDC", "USDC")].find? (fun e => e.1 = token) with
  | some e => e.2
  | none => token

/-- Association-list lookup modelling JS object indexing (`obj[key]`),
`undefined` as `none`. -/
def lookupAssoc {α : Type} (l : List (String × α)) (key : String) : Option α :=
  (l.find? (fun e => e.1 = key)).map (fun e => e.2)

/-- The `try/catch` phase of `fetchQuote` around the one network fetch:
classify the outcome into the adapter's error taxonomy, handing a parsed
2xx body to `parseQuoteResponse`. -/
def quoteNetPhase (net : FetchOutcome) : Except PSError ParsedQuote :=
  match net with
  | .response status body =>
    if status = 429 then .error { code := .RATE_LIMITED }
    else if ¬ statusOk status then
      .error { code := .HTTP_ERROR, status := some status }
    else
      match body with
      | .error _ => .error { code := .MALFORMED_RESPONSE }
      | .ok data => parseQuoteResponse data
  | .abort => .error { code := .TIMEOUT }
  | .failure => .error { code := .NETWORK_ERROR }

/-- Embedding of `fetchQuote({chain, srcToken, destToken, ...})`. The input
validation runs before the network is consulted: unknown chain id or missing
per-chain token table → `INVALID_CHAIN`; missing or null token address
(`if (!srcAddress)` — absent key or null value), or missing decimals →
`INVALID_TOKEN`.  Only then is the network outcome `net` classified by
`quoteNetPhase`. -/
def fetchQuote (chain srcToken destToken : String) (reg : QuoteRegistry)
    (net : FetchOutcome) : Except PSError ParsedQuote :=
  match lookupAssoc reg.chainIds chain with
  | none => .error { code := .INVALID_CHAIN }
  | some _ =>
    match lookupAssoc reg.tokenAddresses chain with
    | none => .error { code := .INVALID_CHAIN }
    | some chainTokens =>
      let srcRegistryName := registryName srcToken
      let destRegistryName := registryName destToken
      match (lookupAssoc chainTokens srcRegistryName).join with
      | none => .error { code := .INVALID_TOKEN }
      | some _ =>
        match (lookupAssoc chainTokens destRegistryName).join with
        | none => .error { code := .INVALID_TOKEN }
        | some _ =>
          match lookupAssoc reg.tokenDecimals srcRegistryName,
                lookupAssoc reg.tokenDecimals destRegistryName with
          | some _, some _ => quoteNetPhase net
          | _, _ => .error { code := .INVALID_TOKEN }

/-- The input-validation condition of `fetchQuote`, mirroring its sequence of
pre-network checks: known chain id, a token table for the chain, non-null
addresses for both token registry names, and known decimals for both. -/
def quoteInputValid (reg : QuoteRegistry) (chain srcToken destToken : String) : Bool :=
  match lookupAssoc reg.chainIds chain with
  | none => false
  | some _ =>
    match lookupAssoc reg.tokenAddresses chain with
    | none => false
    | some chainTokens =>
      (lookupAssoc chainTokens (registryName srcToken)).join.isSome &&
      (lookupAssoc chainTokens (registryName destToken)).join.isSome &&
      (lookupAssoc reg.tokenDecimals (registryName srcToken)).isSome &&
      (lookupAssoc reg.tokenDecimals (registryName destToken)).isSome

/-! ## DeFi Llama price adapter (`src/prices/defillama.js`) and the token
registry from `src/config.js` -/

/-- `TOKEN_ADDRESSES` from `src/config.js` (note `base.WBTC` is `null`). -/
def TOKEN_ADDRESSES : List (String × List (String × Option String)) :=
  [("ethereum",
     [("WETH", some "0xC02aaA39b223FE8D0A0e5C4F27eAD9083C756Cc2"),
      ("USDC", some "0xA0b86991c6218b36c1d19D4a2e9Eb0cE3606eB48"),
      ("WBTC", some "0x2260FAC5E5542a773Aa44fBCfeDf7C193bc2C599")]),
   ("arbitrum",
     [("WETH", some "0x82aF49447D8a07e3bd95BD0d56f35241523fBab1"),
      ("USDC", some "0xaf88d065e77c8cC2239327C5EDb3A432268e5831"),
      ("WBTC", some "0x2f2a2543B76A4166549F7aaB2e75Bef0aefC5B0f")]),
   ("base",
     [("WETH", some "0x4200000000000000000000000000000000000006"),
      ("USDC", some "0x833589fCD6eDb6E08f4c7C32D4f71b54bdA02913"),
      ("WBTC", none)])]

/-- `CHAIN_IDS` from `src/config.js`. -/
def CHAIN_IDS : List (String × Nat) :=
  [("ethereum", 1), ("arbitrum", 42161), ("base", 8453)]

/-- `TOKEN_DECIMALS` from `src/prices/paraswap.js`. -/
def TOKEN_DECIMALS : List (String × Nat) :=
  [("WETH", 18), ("USDC", 6), ("WBTC", 8)]

/-- The default registry bundle `fetchQuote` uses when no test override is
injected. -/
def defaultRegistry : QuoteRegistry :=
  { chainIds := CHAIN_IDS, tokenAddresses := TOKEN_ADDRESSES,
    tokenDecimals := TOKEN_DECIMALS }

/-- `CHAIN_NAME_MAP` from `src/prices/defillama.js`. -/
def CHAIN_NAME_MAP : List (String × String) :=
  [("ethereum", "ethereum"), ("arbitrum", "arbitrum"), ("base", "base")]

/-- A configured trading pair (`{base, quote, symbol}` from `parsePairs`). -/
structure PairCfg where
  base : String
  quote : String
  symbol : String
  deriving Repr, DecidableEq

/-- `mapPairTokenToRegistry` (identical `MAP[token] || token` table in
`defillama.js`). -/
def mapPairTokenToRegistry (token : String) : String := registryName token

/-- `splitCoinKey(coinKey)`: split at the first `:`; no colon yields the
null pair, which the caller skips. -/
def splitCoinKey (coinKey : String) : Option (String × String) :=
  let cs := coinKey.toList
  match cs.findIdx? (fun c => c = ':') with
  | none => none
  | some i => some (String.mk (cs.take i), String.mk (cs.drop (i + 1)))

/-- `reverseChainName(llamaChain)`: first `CHAIN_NAME_MAP` entry whose value
matches. -/
def reverseChainName (llamaChain : String) : Option String :=
  (CHAIN_NAME_MAP.find? (fun e => e.2 = llamaChain)).map (fun e => e.1)

/-- `addressToPair(chain, address, pairs)`: scan the chain's token registry
for a non-null address equal (case-insensitively) to `address`; for the first
such token, return the symbol of the first pair whose base maps to that token
name, continuing the outer scan when no pair matches. -/
def addressToPair (chain address : String) (pairs : List PairCfg) : Option String :=
  match lookupAssoc TOKEN_ADDRESSES chain with
  | none => none
  | some chainTokens =>
    let lowerAddr := address.toLower
    (chainTokens.filterMap (fun tn =>
      match tn.2 with
      | some tokenAddr =>
        if tokenAddr.toLower = lowerAddr then
          (pairs.find? (fun p => mapPairTokenToRegistry p.base = tn.1)).map
            (fun p => p.symbol)
        else none
      | none => none)).head?

/-- One value of the DeFi Llama `coins` map: `price` and `timestamp` are
`none` when the JSON field is absent or not a number. -/
structure CoinEntry where
  price : Option ℚ
  timestamp : Option Int
  deriving Repr, DecidableEq

/-- The `coins` field of a parsed DeFi Llama body: absent/null/falsy, present
but not an object, or an object with entries in property order. -/
inductive CoinsField where
  | missing
  | nonObject
  | entries (es : List (String × CoinEntry))
  deriving Repr, DecidableEq

/-- A JSON-parsed DeFi Llama body (`null` is modelled as `none` at the
caller). -/
structure LlamaData where
  coins : CoinsField
  deriving Repr, DecidableEq

/-- A normalized price observation `{chain, pair, price, timestamp}` as
produced by `parsePrices` (timestamp in seconds, from the upstream body). -/
structure PriceObs where
  chain : String
  pair : String
  price : ℚ
  timestamp : Int
  deriving Repr, DecidableEq

/-- Output of `parsePrices`: normalized price observations and the stale
entries `{key, age}`. -/
structure ParseResult where
  prices : List PriceObs
  stale : List (String × Int)
  deriving Repr, DecidableEq

/-- Embedding of `parsePrices(data, {maxAgeSeconds, now, pairs})`: a null body
or one without an object-valued `coins` field yields the empty result; each
coin entry is skipped unless its key splits into a nonempty chain and address,
the chain reverse-maps, the address maps to a configured pair, and price and
timestamp are numbers; entries older than `maxAgeSeconds` go to `stale`,
the rest become price observations. -/
def parsePrices (data : Option LlamaData) (maxAgeSeconds nowSeconds : Int)
    (pairs : List PairCfg) : ParseResult :=
  match data with
  | none => { prices := [], stale := [] }
  | some d =>
    match d.coins with
    | .missing => { prices := [], stale := [] }
    | .nonObject => { prices := [], stale := [] }
    | .entries es =>
      es.foldl (fun acc e =>
        match splitCoinKey e.1 with
        | none => acc
        | some (llamaChain, address) =>
          if llamaChain.isEmpty || address.isEmpty then acc
          else
            match reverseChainName llamaChain with
            | none => acc
            | some chain =>
              match addressToPair chain address pairs with
              | none => acc
              | some pair =>
                match e.2.price, e.2.timestamp with
                | some price, some timestamp =>
                  let age := nowSeconds - timestamp
                  if maxAgeSeconds < age then
                    { acc with stale := acc.stale ++ [(e.1, age)] }
                  else
                    { acc with prices := acc.prices ++
                        [{ chain := chain, pair := pair, price := price,
                           timestamp := timestamp }] }
                | _, _ => acc) { prices := [], stale := [] }

/-- `buildCoinKeys(chains, pairs)`: deduplicated `llamaChain:address` keys in
insertion order, skipping chains without a token table and pair bases without
a (non-null, nonempty) registered address. -/
def buildCoinKeys (chains : List String) (pairs : List PairCfg) : List String :=
  chains.foldl (fun keys chain =>
    let llamaChain := match lookupAssoc CHAIN_NAME_MAP chain with
      | some v => v
      | none => chain
    match lookupAssoc TOKEN_ADDRESSES chain with
    | none => keys
    | some chainTokens =>
      pairs.foldl (fun ks pr =>
        let tokenName := mapPairTokenToRegistry pr.base
        match (lookupAssoc chainTokens tokenName).join with
        | some address =>
          if address.isEmpty then ks
          else
            let key := llamaChain ++ ":" ++ address
            if ks.contains key then ks else ks ++ [key]
        | none => ks) keys) []

/-- The observable outcome of the single DeFi Llama fetch: an HTTP response
whose body either fails JSON parsing or parses to an optional (`null`-able)
body; an abort; or another fetch failure. -/
inductive LlamaOutcome where
  | response (status : Nat) (body : Except Unit (Option LlamaData))
  | abort
  | failure
  deriving Repr

/-- Error codes attached to `DefiLlamaError`. -/
inductive DLCode where
  | RATE_LIMITED
  | HTTP_ERROR
  | MALFORMED_RESPONSE
  | TIMEOUT
  | NETWORK_ERROR
  deriving Repr, DecidableEq

/-- A `DefiLlamaError`: its code, plus the HTTP status for `HTTP_ERROR`. -/
structure DLError where
  code : DLCode
  status : Option Nat := none
  deriving Repr, DecidableEq

/-- Embedding of `fetchPrices({chains, pairs, maxAgeSeconds, ...})`: no coin
keys short-circuits to the empty result without touching the network;
otherwise the one fetch is classified exactly as in the quote adapter, and a
2xx parsed body is handed to `parsePrices`. -/
def fetchPrices (chains : List String) (pairs : List PairCfg)
    (maxAgeSeconds nowSeconds : Int) (net : LlamaOutcome) :
    Except DLError ParseResult :=
  let coinKeys := buildCoinKeys chains pairs
  if coinKeys.isEmpty then .ok { prices := [], stale := [] }
  else
    match net with
    | .response status body =>
      if status = 429 then .error { code := .RATE_LIMITED }
      else if ¬ statusOk status then .error { code := .HTTP_ERROR, status := some status }
      else
        match body with
        | .error _ => .error { code := .MALFORMED_RESPONSE }
        | .ok data => .ok (parsePrices data maxAgeSeconds nowSeconds pairs)
    | .abort => .error { code := .TIMEOUT }
    | .failure => .error { code := .NETWORK_ERROR }

/-! ## Polling orchestrator (`runCycle` in `src/engine/monitor.js`)

One cycle is a pure function of the two adapters' behavior for this cycle:
the price fetch either throws (an error message) or yields a fetch result,
the per-chain quote refinement either yields a parsed `gasCostUSD` or throws,
and the per-spread simulation either yields its per-size success list or
throws.  The `sim_trades` writes happen inside `simulateTrades`, which the
monitor only observes through the returned results, so they are behind
`simFn` here. -/

/-- One row of the `prices` table as written by `db.insertPrice` from
`runCycle` (the `liquidity_usd` and `gas_price_gwei` columns are always
`null` there and are omitted). -/
structure PriceRow where
  timestamp : Int
  chain : String
  pair : String
  price : ℚ
  deriving Repr, DecidableEq

/-- The persistent state the orchestrator touches: the `prices` table and the
`spreads` table. -/
structure MonitorStore where
  prices : List PriceRow
  spreadStore : Store
  deriving Repr, DecidableEq

/-- The cycle statistics record built by `runCycle`. -/
structure CycleStats where
  priceCount : Nat
  spreadsDetected : Nat
  simulated : Nat
  errors : List String
  deriving Repr, DecidableEq

/-- The JS `Set` of chains involved in the detected spreads, in insertion
order (`add(buyChain)` then `add(sellChain)` per spread). -/
def involvedChains (detectedSpreads : List CandidateSpread) : List String :=
  detectedSpreads.foldl (fun acc s =>
    let acc1 := if acc.contains s.buyChain then acc else acc ++ [s.buyChain]
    if acc1.contains s.sellChain then acc1 else acc1 ++ [s.sellChain]) []

/-- Embedding of `runCycle`.  `fetchResult` is the outcome of the Adapter A
call (`fetchPrices`); `quoteGas chain` is the outcome of the Adapter B call
made for `chain` during refinement (already reduced to
`parseFloat(quote.gasCostUSD)`), a failure defaulting that chain's gas cost
to `0`; `simFn` is `simulateTradesFn`, returning the per-size success flags
or throwing.  A throwing price fetch is caught by the cycle-level `catch`,
which records the message and leaves everything else untouched. -/
def runCycle (fetchResult : Except String ParseResult)
    (quoteGas : String → Except String ℚ)
    (simFn : SpreadRow → Except String (List Bool))
    (ms : MonitorStore) (nowMs : Int) (minGrossSpreadPct minNetSpreadPct : ℚ) :
    CycleStats × MonitorStore :=
  match fetchResult with
  | .error e =>
    ({ priceCount := 0, spreadsDetected := 0, simulated := 0, errors := [e] }, ms)
  | .ok fr =>
    let ms1 : MonitorStore :=
      { ms with prices := ms.prices ++ fr.prices.map (fun p =>
          { timestamp := nowMs, chain := p.chain, pair := p.pair, price := p.price }) }
    let priceRecords := fr.prices.map (fun p =>
      ({ chain := p.chain, pair := p.pair, price := p.price } : PriceRecord))
    let detectedSpreads :=
      detectSpreads priceRecords [] minGrossSpreadPct minNetSpreadPct 10000
    if detectedSpreads.isEmpty then
      let res := processSpreads ms1.spreadStore [] nowMs
      ({ priceCount := fr.prices.length, spreadsDetected := 0, simulated := 0,
         errors := [] },
       { ms1 with spreadStore := res.store })
    else
      let gasCosts := (involvedChains detectedSpreads).map (fun chain =>
        (chain, match quoteGas chain with | .ok g => g | .error _ => 0))
      let refinedSpreads :=
        detectSpreads priceRecords gasCosts minGrossSpreadPct minNetSpreadPct 10000
      let res := processSpreads ms1.spreadStore refinedSpreads nowMs
      let sim := res.newSpreads.foldl (fun acc sp =>
        match simFn sp with
        | .ok results => (acc.1 + (results.filter (fun b => b)).length, acc.2)
        | .error m =>
          (acc.1, acc.2 ++ ["Simulation error for " ++ sp.pair ++ ": " ++ m]))
        ((0 : Nat), ([] : List String))
      ({ priceCount := fr.prices.length, spreadsDetected := res.newSpreads.length,
         simulated := sim.1, errors := sim.2 },
       { ms1 with spreadStore := res.store })

/-! ## Auxiliary definitions for the lifecycle proofs -/

/-- The cumulative effect on a single row of running the closing `UPDATE`
loop over the rows of `l`, in order. -/
def closeAll (nowMs : Int) (l : List SpreadRow) (x : SpreadRow) : SpreadRow :=
  l.foldl (fun y t => closeUpd t.id nowMs (durationOf nowMs t) y) x

/-- A sample open spread row (used to instantiate lifecycle statements). -/
def sampleOpenRow : SpreadRow :=
  { id := 1, detected_at := 1000, closed_at := none, pair := "ETH/USDC",
    buy_chain := "arbitrum", sell_chain := "base", buy_price := 2000,
    sell_price := 2010, gross_spread_pct := 1/2, net_spread_pct := some (1/2),
    duration_seconds := none }

/-- A sample detected candidate (used to instantiate lifecycle statements). -/
def sampleCandidate : CandidateSpread :=
  { pair := "ETH/USDC", buyChain := "arbitrum", sellChain := "base",
    buyPrice := 2000, sellPrice := 2010, grossSpreadPct := 1/2,
    netSpreadPct := 1/2, highFriction := false }

/-! ## Helper lemmas on the lifecycle manager -/

/-- `processSpreads` unfolded into its three components. -/
theorem processSpreads_eq (st : Store) (D : List CandidateSpread) (now : Int) :
    processSpreads st D now =
      { store := (insertLoop ((getOpenSpreads st).map spreadKeyR) now D
            ((((getOpenSpreads st).filter
                (fun r => !((D.map spreadKeyC).contains (spreadKeyR r)))).foldl
              (closeStep now) st), [])).1,
        newSpreads := (insertLoop ((getOpenSpreads st).map spreadKeyR) now D
            ((((getOpenSpreads st).filter
                (fun r => !((D.map spreadKeyC).contains (spreadKeyR r)))).foldl
              (closeStep now) st), [])).2,
        closedSpreads := ((getOpenSpreads st).filter
              (fun r => !((D.map spreadKeyC).contains (spreadKeyR r)))).map
            (fun r => { r with
              closed_at := some now
              duration_seconds := some (durationOf now r) }) } := rfl

/-- Row ids are injective on a well-formed store's rows. -/
theorem store_id_inj {st : Store} (hwf : st.WF) {r t : SpreadRow}
    (hr : r ∈ st.spreads) (ht : t ∈ st.spreads) (h : r.id = t.id) : r = t :=
  List.inj_on_of_nodup_map hwf hr ht h

theorem closeAll_cons (nowMs : Int) (t : SpreadRow) (l : List SpreadRow) (x : SpreadRow) :
    closeAll nowMs (t :: l) x
      = closeAll nowMs l (closeUpd t.id nowMs (durationOf nowMs t) x) := rfl

/-- The closing loop acts on the table pointwise: its effect on the stored
row list is a `map` of the per-row cumulative update. -/
theorem foldl_closeStep_spreads (nowMs : Int) :
    ∀ (l : List SpreadRow) (st : Store),
      (l.foldl (closeStep nowMs) st).spreads = st.spreads.map (closeAll nowMs l) := by
  intro l
  induction l with
  | nil =>
    intro st
    symm
    exact List.map_id'' (fun _ => rfl) st.spreads
  | cons t rest ih =>
    intro st
    rw [List.foldl_cons, ih]
    show (closeStep nowMs st t).spreads.map (closeAll nowMs rest) = _
    simp only [closeStep, closeRow, List.map_map]
    congr 1

/-- A row whose id matches none of the closed rows' ids is untouched by the
closing loop. -/
theorem closeAll_of_ne (nowMs : Int) :
    ∀ (l : List SpreadRow) (x : SpreadRow),
      (∀ t ∈ l, t.id ≠ x.id) → closeAll nowMs l x = x := by
  intro l
  induction l with
  | nil => intro x _; rfl
  | cons t rest ih =>
    intro x h
    rw [closeAll_cons]
    have hx : closeUpd t.id nowMs (durationOf nowMs t) x = x := by
      unfold closeUpd
      rw [if_neg (fun he => h t (List.mem_cons_self t rest) he.symm)]
    rw [hx]
    exact ih x (fun u hu => h u (List.mem_cons_of_mem _ hu))

/-- A row that is among the closed rows, under the primary-key discipline,
ends up closed with its own rounded duration. -/
theorem closeAll_closes (nowMs : Int) :
    ∀ (l : List SpreadRow) (x : SpreadRow),
      x ∈ l → (∀ t ∈ l, t.id = x.id → t = x) → (l.map SpreadRow.id).Nodup →
      closeAll nowMs l x
        = { x with
            closed_at := some nowMs
            duration_seconds := some (durationOf nowMs x) } := by
  intro l
  induction l with
  | nil => intro x hx _ _; exact absurd hx (List.not_mem_nil x)
  | cons t rest ih =>
    intro x hx huniq hnd
    rw [closeAll_cons]
    by_cases he : t = x
    · subst he
      have h1 : closeUpd t.id nowMs (durationOf nowMs t) t
          = { t with
              closed_at := some nowMs
              duration_seconds := some (durationOf nowMs t) } := by
        unfold closeUpd
        rw [if_pos rfl]
      rw [h1]
      apply closeAll_of_ne
      intro u hu hc
      have hnotin : t.id ∉ rest.map SpreadRow.id := (List.nodup_cons.mp hnd).1
      exact hnotin (hc ▸ List.mem_map_of_mem SpreadRow.id hu)
    · have hid : t.id ≠ x.id := fun h => he (huniq t (List.mem_cons_self t rest) h)
      have h1 : closeUpd t.id nowMs (durationOf nowMs t) x = x := by
        unfold closeUpd
        rw [if_neg (fun hh => hid hh.symm)]
      rw [h1]
      have hx' : x ∈ rest := by
        rcases List.mem_cons.mp hx with h | h
        · exact absurd h.symm he
        · exact h
      exact ih x hx' (fun u hu hid' => huniq u (List.mem_cons_of_mem _ hu) hid')
        (List.nodup_cons.mp hnd).2

/-- `insertSpread` appends exactly the record that is also pushed onto
`newSpreads`. -/
theorem insertSpread_spreads (st : Store) (c : CandidateSpread) (now : Int) :
    (insertSpread st c now).1.spreads
      = st.spreads ++ [newSpreadRecord st.nextId c now] := rfl

/-- The insertion loop only ever appends to the stored row list. -/
theorem insertLoop_spreads_append (ok : List String) (now : Int) :
    ∀ (l : List CandidateSpread) (acc : Store × List SpreadRow),
      ∃ suf, (insertLoop ok now l acc).1.spreads = acc.1.spreads ++ suf := by
  intro l
  induction l with
  | nil => intro acc; exact ⟨[], (List.append_nil _).symm⟩
  | cons c rest ih =>
    intro acc
    simp only [insertLoop]
    by_cases h : ok.contains (spreadKeyC c)
    · rw [if_pos h]
      exact ih acc
    · rw [if_neg h]
      obtain ⟨suf, hsuf⟩ := ih ((insertSpread acc.1 c now).1,
        acc.2 ++ [newSpreadRecord (insertSpread acc.1 c now).2 c now])
      refine ⟨[newSpreadRecord acc.1.nextId c now] ++ suf, ?_⟩
      rw [hsuf, insertSpread_spreads, List.append_assoc]

/-- When every candidate's key is already among the open keys, the insertion
loop is the identity. -/
theorem insertLoop_all_contained (ok : List String) (now : Int) :
    ∀ (l : List CandidateSpread) (acc : Store × List SpreadRow),
      (∀ c ∈ l, ok.contains (spreadKeyC c) = true) →
      insertLoop ok now l acc = acc := by
  intro l
  induction l with
  | nil => intro acc _; rfl
  | cons c rest ih =>
    intro acc h
    simp only [insertLoop]
    rw [if_pos (h c (List.mem_cons_self c rest))]
    exact ih acc (fun d hd => h d (List.mem_cons_of_mem _ hd))

/-- A candidate whose key is not among the open keys leaves an open row with
its key in the resulting store. -/
theorem insertLoop_mem_new (ok : List String) (now : Int) :
    ∀ (l : List CandidateSpread) (acc : Store × List SpreadRow)
      (c : CandidateSpread), c ∈ l →
      ok.contains (spreadKeyC c) = false →
      ∃ r ∈ (insertLoop ok now l acc).1.spreads,
        r.closed_at = none ∧ spreadKeyR r = spreadKeyC c := by
  intro l
  induction l with
  | nil => intro acc c hc; exact absurd hc (List.not_mem_nil c)
  | cons d rest ih =>
    intro acc c hc hnc
    simp only [insertLoop]
    rcases List.mem_cons.mp hc with he | hm
    · subst he
      rw [if_neg (fun hmem => Bool.false_ne_true (hnc.symm.trans hmem))]
      obtain ⟨suf, hsuf⟩ := insertLoop_spreads_append ok now rest
        ((insertSpread acc.1 c now).1,
         acc.2 ++ [newSpreadRecord (insertSpread acc.1 c now).2 c now])
      refine ⟨newSpreadRecord acc.1.nextId c now, ?_, rfl, rfl⟩
      rw [hsuf, insertSpread_spreads]
      simp
    · by_cases hd : ok.contains (spreadKeyC d)
      · rw [if_pos hd]
        exact ih acc c hm hnc
      · rw [if_neg hd]
        exact ih _ c hm hnc

/-- Every record in the insertion loop's output list is either carried over
from the accumulator or is the record of some candidate in the list. -/
theorem insertLoop_out_mem (ok : List String) (now : Int) :
    ∀ (l : List CandidateSpread) (acc : Store × List SpreadRow)
      (r : SpreadRow), r ∈ (insertLoop ok now l acc).2 →
      r ∈ acc.2 ∨ ∃ c ∈ l, ∃ rid, r = newSpreadRecord rid c now := by
  intro l
  induction l with
  | nil => intro acc r hr; exact Or.inl hr
  | cons d rest ih =>
    intro acc r hr
    simp only [insertLoop] at hr
    by_cases hd : ok.contains (spreadKeyC d)
    · rw [if_pos hd] at hr
      rcases ih acc r hr with h | ⟨c, hcm, rid, hrc⟩
      · exact Or.inl h
      · exact Or.inr ⟨c, List.mem_cons_of_mem _ hcm, rid, hrc⟩
    · rw [if_neg hd] at hr
      rcases ih _ r hr with h | ⟨c, hcm, rid, hrc⟩
      · rcases List.mem_append.mp h with h2 | h2
        · exact Or.inl h2
        · refine Or.inr ⟨d, List.mem_cons_self d rest,
            (insertSpread acc.1 d now).2, ?_⟩
          simpa using h2
      · exact Or.inr ⟨c, List.mem_cons_of_mem _ hcm, rid, hrc⟩

/-- An open row whose key is still detected survives `processSpreads`
untouched (well-formed store). -/
theorem processSpreads_preserves_detected_open (st : Store)
    (D : List CandidateSpread) (now : Int) (hwf : st.WF) (r : SpreadRow)
    (hr : r ∈ st.spreads) (hopen : r.closed_at = none)
    (hk : (D.map spreadKeyC).contains (spreadKeyR r) = true) :
    r ∈ (processSpreads st D now).store.spreads := by
  have hto : ∀ t ∈ (getOpenSpreads st).filter
      (fun x => !((D.map spreadKeyC).contains (spreadKeyR x))), t.id ≠ r.id := by
    intro t ht hid
    have hts : t ∈ st.spreads :=
      List.mem_of_mem_filter (List.mem_of_mem_filter ht)
    have hcond := (List.mem_filter.mp ht).2
    have hte : t = r := store_id_inj hwf hts hr hid
    rw [hte, hk] at hcond
    simp at hcond
  have h1 : r ∈ (((getOpenSpreads st).filter
      (fun x => !((D.map spreadKeyC).contains (spreadKeyR x)))).foldl
        (closeStep now) st).spreads := by
    rw [foldl_closeStep_spreads]
    have hfix := closeAll_of_ne now _ r hto
    rw [← hfix]
    exact List.mem_map_of_mem _ hr
  rw [processSpreads_eq]
  obtain ⟨suf, hsuf⟩ := insertLoop_spreads_append ((getOpenSpreads st).map spreadKeyR)
    now D ((((getOpenSpreads st).filter
      (fun x => !((D.map spreadKeyC).contains (spreadKeyR x)))).foldl
        (closeStep now) st), [])
  rw [hsuf]
  exact List.mem_append_left _ h1

/-- After one `processSpreads` run, every candidate's key has an open row in
the store (well-formed store). -/
theorem processSpreads_open_key_after (st : Store) (D : List CandidateSpread)
    (now : Int) (hwf : st.WF) (c : CandidateSpread) (hc : c ∈ D) :
    ∃ r ∈ (processSpreads st D now).store.spreads,
      r.closed_at = none ∧ spreadKeyR r = spreadKeyC c := by
  by_cases hk : ((getOpenSpreads st).map spreadKeyR).contains (spreadKeyC c)
  · have hmm : spreadKeyC c ∈ (getOpenSpreads st).map spreadKeyR :=
      List.mem_of_elem_eq_true hk
    obtain ⟨r0, hr0, hkey⟩ := List.mem_map.mp hmm
    have hr0s : r0 ∈ st.spreads := List.mem_of_mem_filter hr0
    have hr0open : r0.closed_at = none := by
      have := (List.mem_filter.mp hr0).2
      simpa using this
    have hkr : (D.map spreadKeyC).contains (spreadKeyR r0) = true := by
      apply List.elem_eq_true_of_mem
      rw [hkey]
      exact List.mem_map_of_mem _ hc
    exact ⟨r0, processSpreads_preserves_detected_open st D now hwf r0 hr0s hr0open hkr,
      hr0open, hkey⟩
  · have hnc : ((getOpenSpreads st).map spreadKeyR).contains (spreadKeyC c) = false := by
      simpa using hk
    rw [processSpreads_eq]
    exact insertLoop_mem_new _ now D _ c hc hnc

/-! ## Helper lemmas on the detector -/

/-- For positive prices, the gross-spread result orders its prices. -/
theorem gross_buy_le_sell (a b : ℚ) (ca cb : String) (ha : 0 < a) (hb : 0 < b) :
    (calculateGrossSpread a ca b cb).buyPrice
      ≤ (calculateGrossSpread a ca b cb).sellPrice := by
  unfold calculateGrossSpread
  rw [if_neg (not_le.mpr (lt_min ha hb))]
  exact min_le_max

/-- Candidates produced for one pair group from positive prices have
`buyPrice ≤ sellPrice`. -/
theorem detectSpreadsForPair_buy_le_sell (pairPrices : List PriceRecord)
    (pr : String) (gasCosts : List (String × ℚ)) (minG minN ref : ℚ)
    (hpos : ∀ p ∈ pairPrices, 0 < p.price) :
    ∀ c ∈ detectSpreadsForPair pairPrices pr gasCosts minG minN ref,
      c.buyPrice ≤ c.sellPrice := by
  intro c hc
  unfold detectSpreadsForPair at hc
  rw [List.mem_filterMap] at hc
  obtain ⟨cp, hcp, heq⟩ := hc
  cases hA : pairPrices.find? (fun p => p.chain = cp.1) with
  | none => rw [hA] at heq; simp at heq
  | some pA =>
    cases hB : pairPrices.find? (fun p => p.chain = cp.2) with
    | none => rw [hA, hB] at heq; simp at heq
    | some pB =>
      rw [hA, hB] at heq
      simp only [] at heq
      have hApos : 0 < pA.price := hpos pA (List.mem_of_find?_eq_some hA)
      have hBpos : 0 < pB.price := hpos pB (List.mem_of_find?_eq_some hB)
      split_ifs at heq with h1 h2
      injection heq with heq2
      rw [← heq2]
      exact gross_buy_le_sell pA.price pB.price cp.1 cp.2 hApos hBpos

/-- Candidates produced by `detectSpreads` from positive prices have
`buyPrice ≤ sellPrice`. -/
theorem detect_buy_le_sell {prices : List PriceRecord}
    {gasCosts : List (String × ℚ)} {minG minN ref : ℚ} {c : CandidateSpread}
    (hpos : ∀ p ∈ prices, 0 < p.price)
    (hc : c ∈ detectSpreads prices gasCosts minG minN ref) :
    c.buyPrice ≤ c.sellPrice := by
  unfold detectSpreads at hc
  rw [List.mem_flatMap] at hc
  obtain ⟨pr, _, hc⟩ := hc
  refine detectSpreadsForPair_buy_le_sell _ pr _ _ _ _ ?_ c hc
  intro p hp
  exact hpos p (List.mem_of_mem_filter hp)

/-- Evaluation of `detectSpreads` on the basic two-chain, one-pair input. -/
theorem detectSpreads_two (c1 c2 pr : String) (q1 q2 : ℚ)
    (gasCosts : List (String × ℚ)) (minG minN ref : ℚ) (hne : c1 ≠ c2) :
    detectSpreads [{ chain := c1, pair := pr, price := q1 },
                   { chain := c2, pair := pr, price := q2 }] gasCosts minG minN ref =
      (if (calculateGrossSpread q1 c1 q2 c2).grossSpreadPct < minG then []
       else if calculateNetSpread (calculateGrossSpread q1 c1 q2 c2).grossSpreadPct
            (lookupGas gasCosts (calculateGrossSpread q1 c1 q2 c2).buyChain)
            (lookupGas gasCosts (calculateGrossSpread q1 c1 q2 c2).sellChain) ref < minN
       then []
       else [{ pair := pr,
               buyChain := (calculateGrossSpread q1 c1 q2 c2).buyChain,
               sellChain := (calculateGrossSpread q1 c1 q2 c2).sellChain,
               buyPrice := (calculateGrossSpread q1 c1 q2 c2).buyPrice,
               sellPrice := (calculateGrossSpread q1 c1 q2 c2).sellPrice,
               grossSpreadPct := (calculateGrossSpread q1 c1 q2 c2).grossSpreadPct,
               netSpreadPct := calculateNetSpread
                 (calculateGrossSpread q1 c1 q2 c2).grossSpreadPct
                 (lookupGas gasCosts (calculateGrossSpread q1 c1 q2 c2).buyChain)
                 (lookupGas gasCosts (calculateGrossSpread q1 c1 q2 c2).sellChain) ref,
               highFriction := isHighFriction (calculateGrossSpread q1 c1 q2 c2).buyChain
                 (calculateGrossSpread q1 c1 q2 c2).sellChain }]) := by
  have hkeys : pairKeys [{ chain := c1, pair := pr, price := q1 },
      { chain := c2, pair := pr, price := q2 }] = [pr] := by
    simp [pairKeys]
  have hgrp : groupForPair [{ chain := c1, pair := pr, price := q1 },
      { chain := c2, pair := pr, price := q2 }] pr
      = [{ chain := c1, pair := pr, price := q1 },
         { chain := c2, pair := pr, price := q2 }] := by
    simp [groupForPair]
  have hfA : List.find? (fun p => p.chain = c1)
      [({ chain := c1, pair := pr, price := q1 } : PriceRecord),
       { chain := c2, pair := pr, price := q2 }]
      = some { chain := c1, pair := pr, price := q1 } := by
    simp
  have hfB : List.find? (fun p => p.chain = c2)
      [({ chain := c1, pair := pr, price := q1 } : PriceRecord),
       { chain := c2, pair := pr, price := q2 }]
      = some { chain := c2, pair := pr, price := q2 } := by
    rw [List.find?_cons_of_neg, List.find?_cons_of_pos] <;> simp [hne]
  unfold detectSpreads
  rw [hkeys]
  simp only [List.flatMap_cons, List.flatMap_nil, List.append_nil]
  rw [hgrp]
  unfold detectSpreadsForPair
  simp only [List.map_cons, List.map_nil]
  have hgcp : generateChainPairs [c1, c2] = [(c1, c2)] := by
    simp [generateChainPairs]
  rw [hgcp, List.filterMap_cons]
  simp only [hfA, hfB]
  split_ifs <;> simp [List.filterMap_nil]

/-! ## Claims about the spread detector arithmetic -/

/-- **C1.** For positive price inputs, `calculateGrossSpread` returns
`grossSpreadPct = (high - low) / low * 100 ≥ 0`, assigns `buyChain` to the
chain with the lower price (ties to the first operand), `sellChain` to the
other, `buyPrice = min`, `sellPrice = max`; equal prices give spread `0`. -/
theorem C1_calculateGrossSpread_positive (a b : ℚ) (ca cb : String)
    (ha : 0 < a) (hb : 0 < b) :
    (calculateGrossSpread a ca b cb).grossSpreadPct
        = (max a b - min a b) / min a b * 100 ∧
    0 ≤ (calculateGrossSpread a ca b cb).grossSpreadPct ∧
    (a ≤ b → (calculateGrossSpread a ca b cb).buyChain = ca ∧
             (calculateGrossSpread a ca b cb).sellChain = cb) ∧
    (b < a → (calculateGrossSpread a ca b cb).buyChain = cb ∧
             (calculateGrossSpread a ca b cb).sellChain = ca) ∧
    (calculateGrossSpread a ca b cb).buyPrice = min a b ∧
    (calculateGrossSpread a ca b cb).sellPrice = max a b ∧
    (a = b → (calculateGrossSpread a ca b cb).grossSpreadPct = 0) := by
  have hlow : 0 < min a b := lt_min ha hb
  have hkey : calculateGrossSpread a ca b cb =
      { grossSpreadPct := (max a b - min a b) / min a b * 100
        buyChain := if a ≤ b then ca else cb
        sellChain := if a ≤ b then cb else ca
        buyPrice := min a b
        sellPrice := max a b } := by
    unfold calculateGrossSpread
    rw [if_neg (not_le.mpr hlow)]
  rw [hkey]
  refine ⟨rfl, ?_, ?_, ?_, rfl, rfl, ?_⟩
  · exact mul_nonneg (div_nonneg (sub_nonneg.mpr min_le_max) hlow.le) (by norm_num)
  · intro hab
    simp [if_pos hab]
  · intro hba
    simp [if_neg (not_le.mpr hba)]
  · intro heq
    subst heq
    simp

/-- Witness for C1 at the documented scenario prices 2000 / 2010. -/
theorem C1_witness :
    (calculateGrossSpread 2000 "arbitrum" 2010 "base").buyChain = "arbitrum" ∧
    (calculateGrossSpread 2000 "arbitrum" 2010 "base").sellChain = "base" ∧
    0 ≤ (calculateGrossSpread 2000 "arbitrum" 2010 "base").grossSpreadPct := by
  have h := C1_calculateGrossSpread_positive 2000 2010 "arbitrum" "base"
    (by norm_num) (by norm_num)
  exact ⟨(h.2.2.1 (by norm_num)).1, (h.2.2.1 (by norm_num)).2, h.2.1⟩

/-- **C6 counterexample.** With prices `5` on `arbitrum` and `-1` on `base`,
the lower price sits on `base`, yet the guard branch returns
`buyChain = "arbitrum"`: the claimed min/max chain assignment fails when the
low price is non-positive. -/
theorem C6_counterexample :
    min (5 : ℚ) (-1) = -1 ∧
    (calculateGrossSpread 5 "arbitrum" (-1) "base").grossSpreadPct = 0 ∧
    (calculateGrossSpread 5 "arbitrum" (-1) "base").buyChain = "arbitrum" ∧
    (calculateGrossSpread 5 "arbitrum" (-1) "base").sellChain = "base" ∧
    "arbitrum" ≠ "base" := by
  refine ⟨by norm_num, ?_, ?_, ?_, by decide⟩ <;> rfl

/-- **C6 (amended).** When the lower price is non-positive,
`calculateGrossSpread` totally returns `grossSpreadPct = 0` (no exception, no
non-finite value in this exact model), with the operands passed through in
argument order: `buyChain = chainA`, `sellChain = chainB`,
`buyPrice = priceA`, `sellPrice = priceB`. -/
theorem C6_amended_guard (a b : ℚ) (ca cb : String) (h : min a b ≤ 0) :
    calculateGrossSpread a ca b cb =
      { grossSpreadPct := 0, buyChain := ca, sellChain := cb,
        buyPrice := a, sellPrice := b } := by
  unfold calculateGrossSpread
  rw [if_pos h]

/-- Witness for the amended C6 at prices `5` / `-1`. -/
theorem C6_amended_witness :
    min (5 : ℚ) (-1) ≤ 0 ∧
    calculateGrossSpread 5 "arbitrum" (-1) "base" =
      { grossSpreadPct := 0, buyChain := "arbitrum", sellChain := "base",
        buyPrice := 5, sellPrice := -1 } :=
  ⟨by norm_num, C6_amended_guard 5 (-1) "arbitrum" "base" (by norm_num)⟩

/-! ## Claims about the trade simulator -/

/-- **C5.** `simulateSingleTrade` records
`tokensBought = destAmount_buy / 10^destDecimals_buy`,
`usdReceived = destAmount_sell / 10^destDecimals_sell`,
`netProfitUsd = usdReceived - tradeSize - gasBuy - gasSell` and
`profitPct = netProfitUsd / tradeSize * 100` (0 when `tradeSize ≤ 0`); the
concrete scenario (buy `4e18` at 18 decimals, gas 0.50; sell `10050000000`
at 6 decimals, gas 0.10; size 10000) yields tokensBought 4, usdReceived
10050, netProfitUsd 49.4 and profitPct 0.494. -/
theorem C5_simulateSingleTrade_profit :
    (∀ (bq sq : SimQuote) (S : ℚ),
      (simulateSingleTrade bq sq S).tokens_bought
          = bq.destAmount / 10 ^ bq.destDecimals ∧
      (simulateSingleTrade bq sq S).usd_received
          = sq.destAmount / 10 ^ sq.destDecimals ∧
      (simulateSingleTrade bq sq S).net_profit_usd
          = sq.destAmount / 10 ^ sq.destDecimals - S - bq.gasCostUSD - sq.gasCostUSD ∧
      (simulateSingleTrade bq sq S).profit_pct
          = if 0 < S then (simulateSingleTrade bq sq S).net_profit_usd / S * 100
            else 0) ∧
    simulateSingleTrade { destAmount := 4 * 10 ^ 18, destDecimals := 18, gasCostUSD := 1/2 }
        { destAmount := 10050000000, destDecimals := 6, gasCostUSD := 1/10 } 10000
      = { trade_size_usd := 10000, tokens_bought := 4, usd_received := 10050,
          gas_cost_buy := 1/2, gas_cost_sell := 1/10,
          net_profit_usd := 247/5, profit_pct := 247/500 } := by
  refine ⟨fun bq sq S => ⟨rfl, rfl, rfl, rfl⟩, ?_⟩
  norm_num [simulateSingleTrade]

/-! ## Claims about the polling orchestrator -/

/-- **C2.** When the price-source fetch throws, `runCycle` does not
propagate: it returns cycle stats with `priceCount = 0`, no detected spreads
or simulations, and exactly the one error entry, and the persistent state is
untouched (no detection, reconciliation or simulation happens). -/
theorem C2_runCycle_fetch_error (e : String)
    (quoteGas : String → Except String ℚ)
    (simFn : SpreadRow → Except String (List Bool))
    (ms : MonitorStore) (nowMs : Int) (minG minN : ℚ) :
    runCycle (Except.error e) quoteGas simFn ms nowMs minG minN
      = ({ priceCount := 0, spreadsDetected := 0, simulated := 0,
           errors := [e] }, ms) := rfl

/-- **C8 counterexample.** A successful cycle persists the observation's
chain, pair and price, but stamps the row with the cycle's wall-clock
`nowMs`, not the observation's own timestamp: an observation with
`timestamp = 100` persisted at `nowMs = 5000` yields a stored row whose
`timestamp` is `5000 ≠ 100`. -/
theorem C8_counterexample :
    (runCycle
        (Except.ok { prices := [{ chain := "arbitrum", pair := "ETH/USDC",
                                  price := 2000, timestamp := 100 }], stale := [] })
        (fun _ => Except.error "unused") (fun _ => Except.error "unused")
        { prices := [], spreadStore := { spreads := [], nextId := 1 } }
        5000 (5/100) (2/100)).2.prices
      = [{ timestamp := 5000, chain := "arbitrum", pair := "ETH/USDC",
           price := 2000 }] ∧
    (5000 : Int) ≠ 100 := by
  exact ⟨rfl, by decide⟩

/-- **C8 (amended).** For every cycle whose price fetch succeeds, `runCycle`
persists exactly one `prices` row per observation, copying `chain`, `pair`
and `price` unmutated but setting the row's `timestamp` to the cycle's
current time `nowMs` (the observation's own timestamp is not persisted). -/
theorem C8_amended_persist (fr : ParseResult)
    (quoteGas : String → Except String ℚ)
    (simFn : SpreadRow → Except String (List Bool))
    (ms : MonitorStore) (nowMs : Int) (minG minN : ℚ) :
    (runCycle (Except.ok fr) quoteGas simFn ms nowMs minG minN).2.prices
      = ms.prices ++ fr.prices.map (fun p =>
          { timestamp := nowMs, chain := p.chain, pair := p.pair,
            price := p.price }) := by
  simp only [runCycle]
  split <;> rfl

/-! ## Claims about the quote adapters -/

/-- **C9.** `fetchQuote` raises an invalid-input error (`INVALID_CHAIN` /
`INVALID_TOKEN`) before the network is consulted when the chain is not in
the chain-id registry, the chain has no token table, or either token has no
(non-null) address registered — formally, the result is the same error for
*every* network outcome `net`.  For valid inputs the network outcome is
classified: HTTP 429 → `RATE_LIMITED`, other non-2xx → `HTTP_ERROR` carrying
the status, JSON parse failure → `MALFORMED_RESPONSE`, abort → `TIMEOUT`,
any other failure → `NETWORK_ERROR`. -/
theorem C9_fetchQuote_validation_taxonomy :
    (∀ (chain src dest : String) (reg : QuoteRegistry) (net : FetchOutcome),
        lookupAssoc reg.chainIds chain = none →
        fetchQuote chain src dest reg net = .error { code := .INVALID_CHAIN }) ∧
    (∀ (chain src dest : String) (reg : QuoteRegistry) (net : FetchOutcome),
        (lookupAssoc reg.chainIds chain).isSome = true →
        lookupAssoc reg.tokenAddresses chain = none →
        fetchQuote chain src dest reg net = .error { code := .INVALID_CHAIN }) ∧
    (∀ (chain src dest : String) (reg : QuoteRegistry) (net : FetchOutcome),
        (lookupAssoc reg.chainIds chain).isSome = true →
        (lookupAssoc reg.tokenAddresses chain).isSome = true →
        ((lookupAssoc reg.tokenAddresses chain).bind
          (fun cts => (lookupAssoc cts (registryName src)).join)) = none →
        fetchQuote chain src dest reg net = .error { code := .INVALID_TOKEN }) ∧
    (∀ (chain src dest : String) (reg : QuoteRegistry) (net : FetchOutcome),
        (lookupAssoc reg.chainIds chain).isSome = true →
        (lookupAssoc reg.tokenAddresses chain).isSome = true →
        (((lookupAssoc reg.tokenAddresses chain).bind
          (fun cts => (lookupAssoc cts (registryName src)).join))).isSome = true →
        ((lookupAssoc reg.tokenAddresses chain).bind
          (fun cts => (lookupAssoc cts (registryName dest)).join)) = none →
        fetchQuote chain src dest reg net = .error { code := .INVALID_TOKEN }) ∧
    (∀ (chain src dest : String) (reg : QuoteRegistry) (net : FetchOutcome),
        quoteInputValid reg chain src dest = true →
        fetchQuote chain src dest reg net = quoteNetPhase net) ∧
    (∀ body, quoteNetPhase (.response 429 body) = .error { code := .RATE_LIMITED }) ∧
    (∀ (s : Nat) body, s ≠ 429 → statusOk s = false →
        quoteNetPhase (.response s body)
          = .error { code := .HTTP_ERROR, status := some s }) ∧
    (∀ (s : Nat), statusOk s = true →
        quoteNetPhase (.response s (.error ()))
          = .error { code := .MALFORMED_RESPONSE }) ∧
    quoteNetPhase .abort = .error { code := .TIMEOUT } ∧
    quoteNetPhase .failure = .error { code := .NETWORK_ERROR } := by
  refine ⟨?_, ?_, ?_, ?_, ?_, ?_, ?_, ?_, rfl, rfl⟩
  · intro chain src dest reg net h
    simp [fetchQuote, h]
  · intro chain src dest reg net hc ht
    obtain ⟨cid, hcid⟩ := Option.isSome_iff_exists.mp hc
    simp [fetchQuote, hcid, ht]
  · intro chain src dest reg net hc ht hs
    obtain ⟨cid, hcid⟩ := Option.isSome_iff_exists.mp hc
    obtain ⟨cts, hcts⟩ := Option.isSome_iff_exists.mp ht
    rw [hcts] at hs
    simp only [Option.some_bind] at hs
    unfold fetchQuote
    simp only [hcid, hcts, hs]
  · intro chain src dest reg net hc ht hs hd
    obtain ⟨cid, hcid⟩ := Option.isSome_iff_exists.mp hc
    obtain ⟨cts, hcts⟩ := Option.isSome_iff_exists.mp ht
    rw [hcts] at hs hd
    simp only [Option.some_bind] at hs hd
    obtain ⟨sa, hsa⟩ := Option.isSome_iff_exists.mp hs
    unfold fetchQuote
    simp only [hcid, hcts, hsa, hd]
  · intro chain src dest reg net h
    unfold quoteInputValid at h
    unfold fetchQuote
    cases hcid : lookupAssoc reg.chainIds chain with
    | none => rw [hcid] at h; simp at h
    | some cid =>
      rw [hcid] at h
      cases hcts : lookupAssoc reg.tokenAddresses chain with
      | none => rw [hcts] at h; simp at h
      | some cts =>
        rw [hcts] at h
        simp only [Bool.and_eq_true] at h
        obtain ⟨⟨⟨hs, hd⟩, hsd⟩, hdd⟩ := h
        obtain ⟨sa, hsa⟩ := Option.isSome_iff_exists.mp hs
        obtain ⟨da, hda⟩ := Option.isSome_iff_exists.mp hd
        obtain ⟨sd, hsd'⟩ := Option.isSome_iff_exists.mp hsd
        obtain ⟨dd, hdd'⟩ := Option.isSome_iff_exists.mp hdd
        simp only [hcid, hcts, hsa, hda, hsd', hdd']
  · intro body
    simp [quoteNetPhase]
  · intro s body hne hok
    simp [quoteNetPhase, hne, hok]
  · intro s hok
    have hne : s ≠ 429 := by
      intro he
      rw [he] at hok
      simp [statusOk] at hok
    simp [quoteNetPhase, hne, hok]

/-- Witness for C9 over the production registry: unknown chain `solana`,
the null `base.WBTC` address, and each taxonomy case on a valid
`arbitrum` `USDC → WETH` request. -/
theorem C9_witness :
    fetchQuote "solana" "USDC" "WETH" defaultRegistry .abort
      = .error { code := .INVALID_CHAIN } ∧
    fetchQuote "base" "WBTC" "USDC" defaultRegistry .abort
      = .error { code := .INVALID_TOKEN } ∧
    fetchQuote "base" "USDC" "WBTC" defaultRegistry .failure
      = .error { code := .INVALID_TOKEN } ∧
    fetchQuote "arbitrum" "USDC" "WETH" defaultRegistry (.response 429 (.ok none))
      = .error { code := .RATE_LIMITED } ∧
    fetchQuote "arbitrum" "USDC" "WETH" defaultRegistry (.response 500 (.ok none))
      = .error { code := .HTTP_ERROR, status := some 500 } ∧
    fetchQuote "arbitrum" "USDC" "WETH" defaultRegistry (.response 200 (.error ()))
      = .error { code := .MALFORMED_RESPONSE } ∧
    fetchQuote "arbitrum" "USDC" "WETH" defaultRegistry .abort
      = .error { code := .TIMEOUT } ∧
    fetchQuote "arbitrum" "USDC" "WETH" defaultRegistry .failure
      = .error { code := .NETWORK_ERROR } := by
  obtain ⟨h1, h2, h3, h4, h5, h6, h7, h8, h9, h10⟩ := C9_fetchQuote_validation_taxonomy
  refine ⟨h1 _ _ _ _ _ (by decide),
          h3 _ _ _ _ _ (by decide) (by decide) (by decide),
          h4 _ _ _ _ _ (by decide) (by decide) (by decide) (by decide),
          ?_, ?_, ?_, ?_, ?_⟩
  · rw [h5 _ _ _ _ _ (by decide)]
    exact h6 _
  · rw [h5 _ _ _ _ _ (by decide)]
    exact h7 _ _ (by decide) (by decide)
  · rw [h5 _ _ _ _ _ (by decide)]
    exact h8 _ (by decide)
  · rw [h5 _ _ _ _ _ (by decide)]
    exact h9
  · rw [h5 _ _ _ _ _ (by decide)]
    exact h10

/-- **C10.** `parsePrices` on a body that is null or lacks an object-valued
`coins` field returns `{prices: [], stale: []}` without any error, and hence
`fetchPrices` on a 2xx response with such a body succeeds with zero prices
rather than failing as a malformed response. -/
theorem C10_parsePrices_empty_body :
    (∀ (maxAge now : Int) (pairs : List PairCfg),
        parsePrices none maxAge now pairs = { prices := [], stale := [] }) ∧
    (∀ (maxAge now : Int) (pairs : List PairCfg),
        parsePrices (some { coins := CoinsField.missing }) maxAge now pairs
          = { prices := [], stale := [] }) ∧
    (∀ (maxAge now : Int) (pairs : List PairCfg),
        parsePrices (some { coins := CoinsField.nonObject }) maxAge now pairs
          = { prices := [], stale := [] }) ∧
    (∀ (chains : List String) (pairs : List PairCfg) (maxAge now : Int)
        (s : Nat) (data : Option LlamaData),
        statusOk s = true →
        (data = none ∨ data = some { coins := CoinsField.missing } ∨
         data = some { coins := CoinsField.nonObject }) →
        fetchPrices chains pairs maxAge now (.response s (.ok data))
          = .ok { prices := [], stale := [] }) := by
  refine ⟨fun _ _ _ => rfl, fun _ _ _ => rfl, fun _ _ _ => rfl, ?_⟩
  intro chains pairs maxAge now s data hok hdata
  have hne : s ≠ 429 := by
    intro he
    rw [he] at hok
    simp [statusOk] at hok
  unfold fetchPrices
  rcases hdata with h | h | h <;> subst h <;>
    simp [hne, hok] <;> intro _ <;> rfl

/-- Witness for C10: a 200 response whose body parses to JSON `null`
yields zero prices for the cycle. -/
theorem C10_witness :
    statusOk 200 = true ∧
    fetchPrices ["ethereum"] [{ base := "ETH", quote := "USDC", symbol := "ETH/USDC" }]
        60 1000 (.response 200 (.ok none))
      = .ok { prices := [], stale := [] } :=
  ⟨by decide,
   C10_parsePrices_empty_body.2.2.2 _ _ _ _ _ _ (by decide) (Or.inl rfl)⟩

/-! ## Claims about the spread lifecycle manager -/

/-- **C3.** The lifecycle manager is idempotent with respect to opening: for
every well-formed store state and candidate set, a second `processSpreads`
run with the same candidates (at any later time) opens nothing — a candidate
whose key is already open at the start of the call is never re-inserted. -/
theorem C3_processSpreads_idempotent (st : Store) (D : List CandidateSpread)
    (now1 now2 : Int) (hwf : st.WF) :
    (processSpreads (processSpreads st D now1).store D now2).newSpreads = [] := by
  have hall : ∀ c ∈ D,
      ((getOpenSpreads (processSpreads st D now1).store).map spreadKeyR).contains
        (spreadKeyC c) = true := by
    intro c hc
    obtain ⟨r, hmem, hropen, hkey⟩ := processSpreads_open_key_after st D now1 hwf c hc
    apply List.elem_eq_true_of_mem
    rw [← hkey]
    apply List.mem_map_of_mem
    exact List.mem_filter.mpr ⟨hmem, by simp [hropen]⟩
  rw [processSpreads_eq (processSpreads st D now1).store D now2]
  rw [insertLoop_all_contained _ now2 D _ hall]

/-- Witness for C3: opening one candidate on an empty store, then running the
same candidate again, opens nothing the second time. -/
theorem C3_witness :
    Store.WF { spreads := [], nextId := 1 } ∧
    (processSpreads (processSpreads { spreads := [], nextId := 1 }
        [sampleCandidate] 1000).store [sampleCandidate] 2000).newSpreads = [] :=
  ⟨by simp [Store.WF], C3_processSpreads_idempotent _ _ _ _ (by simp [Store.WF])⟩

/-- **C4.** In a well-formed store, every open spread whose key is absent
from the candidate set is closed by the single update setting
`closedAt = now` and `durationSeconds = round((now - detectedAt)/1000)` and
is returned in the closed list; an open spread whose key is present is left
in the store untouched (still open). -/
theorem C4_processSpreads_close (st : Store) (D : List CandidateSpread)
    (nowMs : Int) (r : SpreadRow) (hwf : st.WF) (hr : r ∈ st.spreads)
    (hopen : r.closed_at = none) :
    ((D.map spreadKeyC).contains (spreadKeyR r) = false →
      ({ r with
         closed_at := some nowMs
         duration_seconds := some (durationOf nowMs r) }
          ∈ (processSpreads st D nowMs).closedSpreads ∧
       { r with
         closed_at := some nowMs
         duration_seconds := some (durationOf nowMs r) }
          ∈ (processSpreads st D nowMs).store.spreads)) ∧
    ((D.map spreadKeyC).contains (spreadKeyR r) = true →
      r ∈ (processSpreads st D nowMs).store.spreads) := by
  constructor
  · intro hk
    have hrop : r ∈ getOpenSpreads st := List.mem_filter.mpr ⟨hr, by simp [hopen]⟩
    have hrtc : r ∈ (getOpenSpreads st).filter
        (fun x => !((D.map spreadKeyC).contains (spreadKeyR x))) :=
      List.mem_filter.mpr ⟨hrop, by rw [hk]; rfl⟩
    have hsub : ((getOpenSpreads st).filter
        (fun x => !((D.map spreadKeyC).contains (spreadKeyR x)))).Sublist st.spreads :=
      (List.filter_sublist (getOpenSpreads st)).trans (List.filter_sublist st.spreads)
    have hnd : (((getOpenSpreads st).filter
        (fun x => !((D.map spreadKeyC).contains (spreadKeyR x)))).map
          SpreadRow.id).Nodup :=
      hwf.sublist (hsub.map SpreadRow.id)
    have huniq : ∀ t ∈ (getOpenSpreads st).filter
        (fun x => !((D.map spreadKeyC).contains (spreadKeyR x))),
        t.id = r.id → t = r := by
      intro t ht hid
      exact store_id_inj hwf (hsub.subset ht) hr hid
    constructor
    · rw [processSpreads_eq]
      exact List.mem_map_of_mem _ hrtc
    · rw [processSpreads_eq]
      have h1 : { r with
          closed_at := some nowMs
          duration_seconds := some (durationOf nowMs r) }
          ∈ ((((getOpenSpreads st).filter
              (fun x => !((D.map spreadKeyC).contains (spreadKeyR x)))).foldl
            (closeStep nowMs) st)).spreads := by
        rw [foldl_closeStep_spreads]
        rw [← closeAll_closes nowMs _ r hrtc huniq hnd]
        exact List.mem_map_of_mem _ hr
      obtain ⟨suf, hsuf⟩ := insertLoop_spreads_append
        ((getOpenSpreads st).map spreadKeyR) nowMs D
        ((((getOpenSpreads st).filter
            (fun x => !((D.map spreadKeyC).contains (spreadKeyR x)))).foldl
          (closeStep nowMs) st), [])
      rw [hsuf]
      exact List.mem_append_left _ h1
  · intro hk
    exact processSpreads_preserves_detected_open st D nowMs hwf r hr hopen hk

/-- Witness for C4: a store holding one spread opened at `detectedAt = 1000`,
reconciled against an empty candidate set at `now = 61000`, closes it with
duration `round(60000/1000) = 60` seconds. -/
theorem C4_witness :
    durationOf 61000 sampleOpenRow = 60 ∧
    { sampleOpenRow with
      closed_at := some 61000
      duration_seconds := some (durationOf 61000 sampleOpenRow) }
        ∈ (processSpreads { spreads := [sampleOpenRow], nextId := 2 } [] 61000).closedSpreads ∧
    { sampleOpenRow with
      closed_at := some 61000
      duration_seconds := some (durationOf 61000 sampleOpenRow) }
        ∈ (processSpreads { spreads := [sampleOpenRow], nextId := 2 } [] 61000).store.spreads := by
  have h := C4_processSpreads_close { spreads := [sampleOpenRow], nextId := 2 }
    [] 61000 sampleOpenRow (by simp [Store.WF]) (by simp) rfl
  have h2 := h.1 rfl
  refine ⟨?_, h2.1, h2.2⟩
  simp only [durationOf, jsRound, sampleOpenRow]
  rw [Int.floor_eq_iff]
  constructor <;> norm_num

/-! ## Claims about the persisted-spread invariant -/

/-- **C7 counterexample.** With thresholds `0` and input prices `5` on
`arbitrum` and `-1` on `base`, the guard branch's candidate survives both
threshold checks and is inserted by `processSpreads` with
`buyPrice = 5 > sellPrice = -1`: the invariant does not hold for arbitrary
thresholds and input prices. -/
theorem C7_counterexample :
    detectSpreads [{ chain := "arbitrum", pair := "ETH/USDC", price := 5 },
                   { chain := "base", pair := "ETH/USDC", price := -1 }]
        [] 0 0 10000
      = [{ pair := "ETH/USDC", buyChain := "arbitrum", sellChain := "base",
           buyPrice := 5, sellPrice := -1, grossSpreadPct := 0,
           netSpreadPct := 0, highFriction := false }] ∧
    (processSpreads { spreads := [], nextId := 1 }
        [{ pair := "ETH/USDC", buyChain := "arbitrum", sellChain := "base",
           buyPrice := 5, sellPrice := -1, grossSpreadPct := 0,
           netSpreadPct := 0, highFriction := false }] 1000).newSpreads
      = [newSpreadRecord 1
          { pair := "ETH/USDC", buyChain := "arbitrum", sellChain := "base",
            buyPrice := 5, sellPrice := -1, grossSpreadPct := 0,
            netSpreadPct := 0, highFriction := false } 1000] ∧
    (newSpreadRecord 1
        { pair := "ETH/USDC", buyChain := "arbitrum", sellChain := "base",
          buyPrice := 5, sellPrice := -1, grossSpreadPct := 0,
          netSpreadPct := 0, highFriction := false } 1000).buy_price = 5 ∧
    (newSpreadRecord 1
        { pair := "ETH/USDC", buyChain := "arbitrum", sellChain := "base",
          buyPrice := 5, sellPrice := -1, grossSpreadPct := 0,
          netSpreadPct := 0, highFriction := false } 1000).sell_price = -1 ∧
    ¬ ((5 : ℚ) ≤ (-1 : ℚ)) := by
  refine ⟨?_, rfl, rfl, rfl, by norm_num⟩
  have hg : calculateGrossSpread 5 "arbitrum" (-1) "base"
      = { grossSpreadPct := 0, buyChain := "arbitrum", sellChain := "base",
          buyPrice := 5, sellPrice := -1 } := by
    unfold calculateGrossSpread
    rw [if_pos (by norm_num [min_def])]
  rw [detectSpreads_two _ _ _ _ _ _ _ _ _ (by decide), hg]
  norm_num [calculateNetSpread, lookupGas, isHighFriction]
  exact ⟨by decide, by decide⟩

/-- **C7 (amended).** Provided every input price is positive, every candidate
produced by `detectSpreads` has `buyPrice ≤ sellPrice`, and `processSpreads`
only inserts rows with `buy_price ≤ sell_price` from such candidates (with a
non-positive price and non-positive thresholds the guard branch can persist
`buyPrice > sellPrice`). -/
theorem C7_amended_buy_le_sell :
    (∀ (prices : List PriceRecord) (gasCosts : List (String × ℚ))
        (minG minN ref : ℚ) (c : CandidateSpread),
        (∀ p ∈ prices, 0 < p.price) →
        c ∈ detectSpreads prices gasCosts minG minN ref →
        c.buyPrice ≤ c.sellPrice) ∧
    (∀ (st : Store) (D : List CandidateSpread) (now : Int) (r : SpreadRow),
        (∀ c ∈ D, c.buyPrice ≤ c.sellPrice) →
        r ∈ (processSpreads st D now).newSpreads →
        r.buy_price ≤ r.sell_price) := by
  constructor
  · intro prices gasCosts minG minN ref c hpos hc
    exact detect_buy_le_sell hpos hc
  · intro st D now r hD hr
    rw [processSpreads_eq] at hr
    rcases insertLoop_out_mem _ now D _ r hr with h | ⟨c, hcD, rid, hrc⟩
    · exact absurd h (List.not_mem_nil r)
    · rw [hrc]
      exact hD c hcD

/-- Witness for the amended C7: the positive-price scenario 2000/2010 gives a
candidate and an inserted row with `buyPrice ≤ sellPrice`. -/
theorem C7_amended_witness :
    sampleCandidate.buyPrice ≤ sampleCandidate.sellPrice ∧
    (newSpreadRecord 1 sampleCandidate 1000).buy_price
      ≤ (newSpreadRecord 1 sampleCandidate 1000).sell_price := by
  constructor
  · refine C7_amended_buy_le_sell.1
      [{ chain := "arbitrum", pair := "ETH/USDC", price := 2000 },
       { chain := "base", pair := "ETH/USDC", price := 2010 }]
      [] 0 0 10000 sampleCandidate ?_ ?_
    · intro p hp
      rcases List.mem_cons.mp hp with h | h
      · rw [h]; norm_num
      · rw [List.mem_singleton.mp h]; norm_num
    · have hg2 : calculateGrossSpread 2000 "arbitrum" 2010 "base"
          = { grossSpreadPct := 1/2, buyChain := "arbitrum", sellChain := "base",
              buyPrice := 2000, sellPrice := 2010 } := by
        unfold calculateGrossSpread
        rw [if_neg (by norm_num [min_def])]
        norm_num [min_def, max_def]
      have hdet : detectSpreads
          [{ chain := "arbitrum", pair := "ETH/USDC", price := 2000 },
           { chain := "base", pair := "ETH/USDC", price := 2010 }]
          [] 0 0 10000 = [sampleCandidate] := by
        rw [detectSpreads_two _ _ _ _ _ _ _ _ _ (by decide), hg2]
        norm_num [calculateNetSpread, lookupGas, isHighFriction, sampleCandidate]
        exact ⟨by decide, by decide⟩
      rw [hdet]
      exact List.mem_singleton_self _
  · refine C7_amended_buy_le_sell.2 { spreads := [], nextId := 1 }
      [sampleCandidate] 1000 (newSpreadRecord 1 sampleCandidate 1000) ?_ ?_
    · intro c hc
      rw [List.mem_singleton.mp hc]
      norm_num [sampleCandidate]
    · exact List.mem_singleton_self _

end TradeArb
